import Mathlib

/-!
Verification development for the ASAR sea-state L2 processor
(`asar_seastate_processor`): a shallow embedding of the transformation
pipeline (`processor.py`, `utils.py`) together with theorems checking the
natural-language specification against the code.

Modelling conventions:
* Floating-point sample values are modelled as `Option ℚ`: `none` is the
  not-a-number sentinel (NaN), `some q` a finite value.  All numpy/xarray
  comparisons on NaN are false, which the comparison helpers reproduce.
* xarray `Dataset`s are modelled by an association list of named variables
  (each with dimension names, shape, row-major flattened data and
  attributes), a list of coordinate names, a dimension-size map and global
  attributes.  Assignment prepends (lookup returns the most recent entry,
  matching dict overwrite semantics).
* Python exceptions (`KeyError` from `ds[name]`/`drop_vars`/`sel`,
  `ValueError`, `TypeError`) are modelled by `Except ProcError`.
* The ONNX predictor is an opaque function from the stacked 2-D feature
  matrix to a list of output matrices, mirroring `model.run`.
-/

namespace ASAR

/-- A floating point sample value: `none` models NaN. -/
abbrev FVal := Option ℚ

/-- A 2-D numeric array as a list of rows. -/
abbrev Mat := List (List FVal)

/-- numpy `x >= c`: false on NaN. -/
def fge (x : FVal) (c : ℚ) : Bool :=
  match x with
  | none => false
  | some v => decide (c ≤ v)

/-- numpy `x <= c`: false on NaN. -/
def fle (x : FVal) (c : ℚ) : Bool :=
  match x with
  | none => false
  | some v => decide (v ≤ c)

/-- The `np.select` classification of `add_quality_indices` (utils.py):
conditions `[c < t1, (c >= t1) & (c < t2), c >= t2]`, choices `[1, 2, 3]`,
default `0`; NaN makes every comparison false. -/
def classify (t1 t2 : ℚ) (v : FVal) : FVal :=
  match v with
  | none => some 0
  | some x =>
    if x < t1 then some 1
    else if t1 ≤ x ∧ x < t2 then some 2
    else if t2 ≤ x then some 3
    else some 0

/-! ### Generic association-list and monadic helpers -/

/-- Key lookup in an association list (first match wins, like reading a
Python dict that is updated by prepending). -/
def vlookup (l : List (String × α)) (k : String) : Option α :=
  match l with
  | [] => none
  | (n, v) :: t => if n = k then some v else vlookup t k

/-- Sequential `mapM` over `Except`, as a Python comprehension evaluates:
left to right, aborting at the first exception. -/
def mapME (f : α → Except ε β) : List α → Except ε (List β)
  | [] => .ok []
  | x :: t =>
    match f x with
    | .error e => .error e
    | .ok y =>
      match mapME f t with
      | .error e => .error e
      | .ok ys => .ok (y :: ys)

/-- Sequential fold over `Except`, as a Python `for` loop that rebinds an
accumulator and may raise. -/
def foldlE (f : σ → α → Except ε σ) (init : σ) : List α → Except ε σ
  | [] => .ok init
  | x :: t =>
    match f init x with
    | .error e => .error e
    | .ok s => foldlE f s t

/-- `dict.pop(k, None)`: the value found at `k` (if any) and the mapping
with the first `k` entry removed. -/
def popKey (l : List (String × α)) (k : String) : Option α × List (String × α) :=
  match l with
  | [] => (none, [])
  | (n, v) :: t =>
    if n = k then (some v, t)
    else
      let r := popKey t k
      (r.1, (n, v) :: r.2)

/-! ### The dataset model -/

/-- Python exceptions raised by the pipeline, as the code actually raises
them: xarray key lookups raise `KeyError` (carrying the key), shape and
argument problems raise `ValueError`, subscripting a non-mapping raises
`TypeError`.  The spec's taxonomy names (`MissingFeatureError`, ...) are
labels for these failure modes; no such classes exist in the source. -/
inductive ProcError where
  | keyError (key : String)
  | valueError (msg : String)
  | typeError (msg : String)
  deriving DecidableEq, Repr

/-- An xarray variable: dimension names, shape, row-major (C-order)
flattened data and attributes. -/
structure Var where
  dims : List String
  shape : List Nat
  data : List FVal
  attrs : List (String × String)
  deriving DecidableEq, Repr

/-- An xarray `Dataset`: named variables (coordinate variables included,
as in `ds.variables`), the subset of names that are coordinates,
dimension sizes and global attributes. -/
structure Dataset where
  vars : List (String × Var)
  coords : List String
  sizes : List (String × Nat)
  attrs : List (String × String)
  deriving DecidableEq, Repr

/-- `ds[name]`: raises `KeyError` when the variable is absent. -/
def getVarE (ds : Dataset) (n : String) : Except ProcError Var :=
  match vlookup ds.vars n with
  | some v => .ok v
  | none => .error (.keyError n)

/-- `ds.sizes[dim]`: raises `KeyError` when the dimension is absent. -/
def sizeE (ds : Dataset) (d : String) : Except ProcError Nat :=
  match vlookup ds.sizes d with
  | some s => .ok s
  | none => .error (.keyError d)

/-- `ds[name] = value` for a plain (non-coordinate) assignment. -/
def dsSet (ds : Dataset) (n : String) (v : Var) : Dataset :=
  { ds with vars := (n, v) :: ds.vars }

/-- Assignment of a coordinate variable: the name also becomes a
coordinate of the dataset. -/
def dsSetCoord (ds : Dataset) (n : String) (v : Var) : Dataset :=
  { ds with vars := (n, v) :: ds.vars, coords := n :: ds.coords }

/-- `ds.drop_vars(name)` once the name is known to be present: removes
every binding of the name. -/
def dropVarAll (ds : Dataset) (n : String) : Dataset :=
  { ds with vars := ds.vars.filter (fun p => p.1 ≠ n) }

/-- The empty `xr.Dataset()`. -/
def emptyDs : Dataset := ⟨[], [], [], []⟩

/-! ### `predict_variables` (processor.py)

The predictor (`onnxruntime.InferenceSession.run`) is modelled as an
opaque function from the stacked 2-D input matrix to the list of returned
output matrices; the `get_inputs()[0].name` plumbing and the `float32`
cast (identity on ideal numbers) are absorbed into that function. -/

/-- A numpy array as the code distinguishes them: `data.ndim == 1` or 2-D. -/
inductive NpArr where
  | one (d : List FVal)
  | two (m : Mat)
  deriving DecidableEq, Repr

/-- `data[:, np.newaxis] if data.ndim == 1 else data`. -/
def reshapeCol : NpArr → Mat
  | .one d => d.map (fun x => [x])
  | .two m => m

/-- `np.concatenate(mats, axis=1)` on row-aligned matrices. -/
def concatCols : List Mat → Mat
  | [] => []
  | [m] => m
  | m :: ms => List.zipWith (· ++ ·) m (concatCols ms)

/-- The `X_stacked` feature matrix built by `predict_variables`:
reshape every 1-D input to a column, concatenate along axis 1. -/
def featureTensor (inputs : List NpArr) : Mat :=
  concatCols (inputs.map reshapeCol)

/-- `r.shape[-1]` of a 2-D array given as uniform rows. -/
def numCols (r : Mat) : Nat := (r.headD []).length

/-- `r[:, i]`: column `i` as a per-sample 1-D array. -/
def colAt (r : Mat) (i : Nat) : List FVal :=
  r.map (fun row => row.getD i none)

/-- `[r[:, i] for i in range(r.shape[-1])]`, generated from index `i0`. -/
def colsFrom (r : Mat) (i0 : Nat) : Nat → List (List FVal)
  | 0 => []
  | n + 1 => colAt r i0 :: colsFrom r (i0 + 1) n

/-- All columns of one output tensor, in sub-variable order. -/
def colsOf (r : Mat) : List (List FVal) := colsFrom r 0 (numCols r)

/-- `[r[:, i] for r in res for i in range(r.shape[-1])]`: flatten the
predictor's output tensors, in tensor order then sub-variable order. -/
def flattenPredictions : List Mat → List (List FVal)
  | [] => []
  | r :: rest => colsOf r ++ flattenPredictions rest

/-- `predict_variables` (processor.py): build `X_stacked` from the input
arrays, run the model once, flatten the returned tensors into an ordered
list of per-sample 1-D arrays. -/
def predict_variables (model : Mat → List Mat) (inputs : List NpArr) :
    List (List FVal) :=
  flattenPredictions (model (featureTensor inputs))

/-- Number of flattened columns produced before tensor `j`. -/
def colsBefore (res : List Mat) (j : Nat) : Nat :=
  ((res.take j).map numCols).sum

/-! ### `generate_product_on_land` (processor.py) -/

/-- One iteration of the `for var in kept_variables` loop of
`generate_product_on_land`: copy from the acquisition when present, else
fall back to a template coordinate, else synthesize a NaN fill array of
shape `('time',) + l2_ref[var].dims` with the template's attributes. -/
def landKeptStep (ds_land l2_ref : Dataset) (acc : Dataset) (var : String) :
    Except ProcError Dataset :=
  match vlookup ds_land.vars var with
  | some v => .ok (dsSet acc var v)
  | none =>
    if var ∈ l2_ref.coords ∧ var ∉ ds_land.coords then
      match vlookup l2_ref.vars var with
      | some v => .ok (dsSetCoord acc var v)
      | none => .error (.keyError var)
    else
      match vlookup l2_ref.vars var with
      | none => .error (.keyError var)
      | some tv =>
        match mapME
            (fun d => if d = "time" then sizeE ds_land "time" else sizeE l2_ref d)
            ("time" :: tv.dims) with
        | .error e => .error e
        | .ok shape =>
          .ok (dsSet acc var
            ⟨"time" :: tv.dims, shape, List.replicate shape.prod none, tv.attrs⟩)

/-- The `kept_variables` loop of `generate_product_on_land`, starting from
the empty `xr.Dataset()`. -/
def landKeptLoop (ds_land l2_ref : Dataset) (kept : List String) :
    Except ProcError Dataset :=
  foldlE (landKeptStep ds_land l2_ref) emptyDs kept

/-- One iteration of the `for coord in coords_to_add` loop: copy the
template coordinate unmodified. -/
def landCoordStep (l2_ref : Dataset) (acc : Dataset) (c : String) :
    Except ProcError Dataset :=
  match vlookup l2_ref.vars c with
  | some v => .ok (dsSetCoord acc c v)
  | none => .error (.keyError c)

/-- `generate_product_on_land` (processor.py).  `model_outputs` is passed
by the caller but never used, exactly as in the source. -/
def generate_product_on_land (ds_land l2_ref : Dataset)
    (model_outputs kept_variables : List String) : Except ProcError Dataset :=
  Except.bind (landKeptLoop ds_land l2_ref kept_variables) (fun l2_land =>
    Except.bind
      (foldlE (landCoordStep l2_ref) l2_land
        (l2_ref.coords.filter (fun c => c ∉ l2_land.coords)))
      (fun l2_land => .ok { l2_land with attrs := ds_land.attrs }))

/-! ### Tile stacking and the orchestrator (processor.py) -/

/-- Position of a name in a list (length if absent). -/
def posOf (l : List String) (x : String) : Nat :=
  match l with
  | [] => 0
  | y :: t => if y = x then 0 else posOf t x + 1

/-- Multi-index of a flat C-order index for a given shape. -/
def unravel : List Nat → Nat → List Nat
  | [], _ => []
  | _ :: rest, i => i / rest.prod :: unravel rest (i % rest.prod)

/-- Flat C-order index of a multi-index for a given shape. -/
def ravel : List Nat → List Nat → Nat
  | [], _ => 0
  | _ :: _, [] => 0
  | _ :: srest, x :: xs => x * srest.prod + ravel srest xs

/-- `ds.stack(k_phi=["k_gp", "phi_hf"])` on one variable: when the
variable carries both tile dimensions, move them (in that order) to the
end and fuse them into one flattened `k_phi` dimension, permuting the
data accordingly; other variables are untouched. -/
def stackVar (v : Var) : Var :=
  if "k_gp" ∈ v.dims ∧ "phi_hf" ∈ v.dims then
    let others := v.dims.filter (fun d => d ≠ "k_gp" ∧ d ≠ "phi_hf")
    let preDims := others ++ ["k_gp", "phi_hf"]
    let preShape := preDims.map (fun d => (v.shape.getD (posOf v.dims d) 0))
    let data := (List.range preShape.prod).map (fun j =>
      v.data.getD
        (ravel v.shape (v.dims.map (fun d => (unravel preShape j).getD (posOf preDims d) 0)))
        none)
    let kSz := v.shape.getD (posOf v.dims "k_gp") 0
    let pSz := v.shape.getD (posOf v.dims "phi_hf") 0
    ⟨others ++ ["k_phi"], (others.map (fun d => v.shape.getD (posOf v.dims d) 0)) ++ [kSz * pSz],
     data, v.attrs⟩
  else v

/-- `ds.stack(k_phi=["k_gp", "phi_hf"])` on the dataset: variable names
are preserved; the two tile dimensions are replaced by `k_phi`. -/
def stackTiles (ds : Dataset) : Dataset :=
  let kSz := (vlookup ds.sizes "k_gp").getD 0
  let pSz := (vlookup ds.sizes "phi_hf").getD 0
  { ds with
    vars := ds.vars.map (fun p => (p.1, stackVar p.2)),
    sizes := ds.sizes.filter (fun p => p.1 ≠ "k_gp" ∧ p.1 ≠ "phi_hf")
              ++ [("k_phi", kSz * pSz)] }

/-- `ds.land_flag.all()`: numpy truth of every sample; NaN counts as
true, any nonzero value counts as true. -/
def landAllB (v : Var) : Bool :=
  v.data.all (fun x => decide (x ≠ some 0))

/-- An input array for `predict_variables` from a variable whose leading
axis is `time`: 1-D variables become `ndim == 1` arrays, 2-D variables
(such as stacked `cwave_params`) become row-major matrices.  The code's
`np.concatenate(..., axis=1)` presupposes exactly these ranks. -/
def toNpArr (v : Var) : Except ProcError NpArr :=
  match v.shape with
  | [_] => .ok (.one v.data)
  | [t, c] =>
    .ok (.two ((List.range t).map (fun i => ((v.data.drop (i * c)).take c))))
  | _ => .error (.valueError "operands could not be broadcast")

/-- `{label: predictions.sel(preds=i) for i, label in enumerate(model_outputs)}`
(processor.py): positional selection of prediction columns, starting at
index `i0`.  Selecting past the available columns raises the positional
lookup error; surplus columns are never touched. -/
def formatPredsFrom (preds : List (List FVal)) (i0 : Nat) :
    List String → Except ProcError (List (String × List FVal))
  | [] => .ok []
  | label :: rest =>
    match preds.get? i0 with
    | none => .error (.keyError (toString i0))
    | some c =>
      match formatPredsFrom preds (i0 + 1) rest with
      | .error e => .error e
      | .ok xs => .ok ((label, c) :: xs)

/-- The prediction-formatting step of `generate_l2_wave_product`. -/
def formatPredictions (preds : List (List FVal)) (model_outputs : List String) :
    Except ProcError (List (String × List FVal)) :=
  formatPredsFrom preds 0 model_outputs

/-- `xr.merge([ds[kept_variables], predictions])`: the kept input
variables together with the per-`time` prediction arrays. -/
def mergeProduct (ds : Dataset) (kept : List (String × Var))
    (predictions : List (String × List FVal)) : Dataset :=
  { vars := kept ++ predictions.map (fun p => (p.1, ⟨["time"], [p.2.length], p.2, []⟩)),
    coords := ds.coords,
    sizes := ds.sizes,
    attrs := ds.attrs }

/-- `ds.reset_coords(names, drop=True)`: the named coordinates are
removed from the dataset; a name that is not a coordinate raises. -/
def resetCoordsDrop (ds : Dataset) (names : List String) :
    Except ProcError Dataset :=
  if names.all (fun n => n ∈ ds.coords) then
    .ok { ds with
          vars := ds.vars.filter (fun p => p.1 ∉ names),
          coords := ds.coords.filter (fun c => c ∉ names) }
  else .error (.valueError "cannot remove index coordinates")

/-- `generate_l2_wave_product` (processor.py), statement for statement.
The template file `l2_ref.nc` read in the land branch is supplied as the
`l2_ref` argument.  Note the source has no `return` in the land branch:
the substituted dataset is rebound to `ds` and control falls through to
tile stacking, feature extraction and prediction. -/
def generate_l2_wave_product (ds l2_ref : Dataset) (model : Mat → List Mat)
    (model_inputs model_outputs kept_variables : List String) :
    Except ProcError Dataset :=
  Except.bind (getVarE ds "land_flag") (fun lf =>
    Except.bind
      (if landAllB lf then
        generate_product_on_land ds l2_ref model_outputs kept_variables
      else .ok ds)
      (fun ds =>
        Except.bind
          (mapME
            (getVarE (if "cwave_params" ∈ model_inputs then stackTiles ds else ds))
            model_inputs)
          (fun input_vars =>
            Except.bind (mapME toNpArr input_vars) (fun arrs =>
              Except.bind
                (formatPredictions (predict_variables model arrs) model_outputs)
                (fun predictions =>
                  Except.bind
                    (mapME (fun v => (getVarE ds v).map (fun w => (v, w)))
                      kept_variables)
                    (fun kept =>
                      resetCoordsDrop (mergeProduct ds kept predictions)
                        ["line", "sample"]))))))

/-! ### `apply_range_filters` (utils.py) -/

/-- `(value >= min) & (value <= max)` on one sample: inclusive on both
ends, false on NaN. -/
def boundsTest (mn mx : ℚ) (x : FVal) : Bool :=
  fge x mn && fle x mx

/-- One iteration of the mask loop: `mask & ((l1b[var] >= min) & (l1b[var] <= max))`,
raising `KeyError` when the configured variable is absent from `l1b`. -/
def maskStep (l1b : Dataset) (m : List Bool) (p : String × ℚ × ℚ) :
    Except ProcError (List Bool) :=
  match vlookup l1b.vars p.1 with
  | none => .error (.keyError p.1)
  | some w => .ok (List.zipWith and m (w.data.map (boundsTest p.2.1 p.2.2)))

/-- The mask-accumulation loop of `apply_range_filters`: starting from
`np.full(l1b.sizes['time'], True)`, AND in each configured variable's
inclusive-bounds test, evaluated on the original acquisition `l1b`. -/
def buildMask (l1b : Dataset) (t : Nat) (rf : List (String × ℚ × ℚ)) :
    Except ProcError (List Bool) :=
  foldlE (maskStep l1b) (List.replicate t true) rf

/-- Apply the per-`time` mask to flattened data whose rows have `r`
cells, the first cell carrying flat index `i0`: kept where the mask is
true, NaN where it is false. -/
def maskFrom (mask : List Bool) (r : Nat) (i0 : Nat) : List FVal → List FVal
  | [] => []
  | x :: xs =>
    (if mask.getD (i0 / r) false then x else none) :: maskFrom mask r (i0 + 1) xs

/-- `.where(mask, np.nan)` on one variable whose leading axis is `time`. -/
def whereVar (mask : List Bool) (v : Var) : Var :=
  { v with data := maskFrom mask v.shape.tail.prod 0 v.data }

/-- `l2.where(mask, np.nan)`: every data variable is masked along `time`;
coordinates pass through untouched, as xarray's `where` leaves them. -/
def whereDs (l2 : Dataset) (mask : List Bool) : Dataset :=
  { l2 with
    vars := l2.vars.map
      (fun p => (p.1, if p.1 ∈ l2.coords then p.2 else whereVar mask p.2)) }

/-- `apply_range_filters` (utils.py): `if not range_filters: return l2`,
else build the mask over the acquisition's `time` dimension and apply it
to the whole product. -/
def apply_range_filters (l1b l2 : Dataset) (rf : List (String × ℚ × ℚ)) :
    Except ProcError Dataset :=
  if rf.isEmpty then .ok l2
  else
    match sizeE l1b "time" with
    | .error e => .error e
    | .ok t =>
      match buildMask l1b t rf with
      | .error e => .error e
      | .ok mask => .ok (whereDs l2 mask)

/-! ### `add_quality_indices` (utils.py) -/

/-- An entry of the `quality_variables` mapping: either the global
`drop_confidence` flag or a quality-variable configuration
`{input, thresholds: (t1, t2), attributes}`. -/
inductive QEntry where
  | flag (b : Bool)
  | cfg (input : String) (t1 t2 : ℚ) (attrs : List (String × String))
  deriving DecidableEq, Repr

/-- Python truthiness of the popped `drop_confidence` value (`None` when
the key was absent). -/
def truthy : Option QEntry → Bool
  | none => false
  | some (.flag b) => b
  | some (.cfg _ _ _ _) => true

/-- One iteration of the `for var_name, config in quality_variables.items()`
loop of `add_quality_indices`: read the confidence input (KeyError when
absent), classify every sample, store the quality variable with the
spec's attributes, and — when the drop flag is set — drop the consumed
input right away, inside the loop (`drop_vars` raises on a missing
name). -/
def qualityStep (drop : Bool) (ds : Dataset) (p : String × QEntry) :
    Except ProcError Dataset :=
  match p.2 with
  | .flag _ => .error (.typeError "value is not subscriptable")
  | .cfg input t1 t2 attrs =>
    match vlookup ds.vars input with
    | none => .error (.keyError input)
    | some conf =>
      let ds := dsSet ds p.1 ⟨conf.dims, conf.shape, conf.data.map (classify t1 t2), attrs⟩
      if drop then
        if (vlookup ds.vars input).isSome then .ok (dropVarAll ds input)
        else .error (.keyError input)
      else .ok ds

/-- `add_quality_indices` (utils.py).  The first component is the
returned dataset (or the raised exception); the second component is the
post-call state of the caller's `quality_variables` mapping, which the
function mutates through `quality_variables.pop('drop_confidence', None)`. -/
def add_quality_indices (ds : Dataset) (quality_variables : List (String × QEntry)) :
    Except ProcError Dataset × List (String × QEntry) :=
  let pq := popKey quality_variables "drop_confidence"
  (foldlE (qualityStep (truthy pq.1)) ds pq.2, pq.2)

/-! ### Concrete fixtures -/

/-- Confidence samples of the spec's end-to-end quality scenario. -/
def qualityConfDs : Dataset :=
  ⟨[("swh_conf", ⟨["time"], [5],
      [some (1/10), some (3/10), some (5/10), some (7/10), some (9/10)], []⟩)],
   [], [("time", 5)], []⟩

/-- Quality spec `{t1: 0.3, t2: 0.7}` over the confidence variable. -/
def qualitySpec : List (String × QEntry) :=
  [("swh_quality", .cfg "swh_conf" (3/10) (7/10) [])]

/-- A dataset holding one confidence variable, for the double-drop run. -/
def qcDs : Dataset := ⟨[("conf", ⟨["time"], [1], [some 0], []⟩)], [], [("time", 1)], []⟩

/-- A quality spec whose drop flag is set and whose two entries reference
the same confidence input. -/
def qcSpec : List (String × QEntry) :=
  [("drop_confidence", .flag true),
   ("q1", .cfg "conf" 0 1 []),
   ("q2", .cfg "conf" 0 1 [])]

/-- A two-sample acquisition with one filterable variable `x = [5, 9]`. -/
def rfL1b : Dataset :=
  ⟨[("x", ⟨["time"], [2], [some 5, some 9], []⟩)], [], [("time", 2)], []⟩

/-- A two-sample L2 product with one predicted variable. -/
def rfL2 : Dataset :=
  ⟨[("swh", ⟨["time"], [2], [some 1, some 2], []⟩)], [], [("time", 2)], []⟩

/-- Range-filter spec `{x: {min: 2, max: 8}}`. -/
def rfSpec : List (String × ℚ × ℚ) := [("x", 2, 8)]

/-! ### Helper lemmas -/

theorem popKey_subset {l : List (String × α)} {k : String} :
    ∀ p ∈ (popKey l k).2, p ∈ l := by
  induction l with
  | nil => intro p hp; simp [popKey] at hp
  | cons q t ih =>
    obtain ⟨n, v⟩ := q
    intro p hp
    by_cases h : n = k
    · simp only [popKey, if_pos h] at hp
      exact List.mem_cons_of_mem (n, v) hp
    · simp only [popKey, if_neg h, List.mem_cons] at hp
      rcases hp with hp | hp
      · exact hp ▸ List.mem_cons_self (n, v) t
      · exact List.mem_cons_of_mem (n, v) (ih p hp)

theorem popKey_mem_of_ne {l : List (String × α)} {k : String} :
    ∀ p ∈ l, p.1 ≠ k → p ∈ (popKey l k).2 := by
  induction l with
  | nil => intro p hp; simp at hp
  | cons q t ih =>
    obtain ⟨n, v⟩ := q
    intro p hp hne
    rcases List.mem_cons.mp hp with h | h
    · subst h
      have hq : ¬ n = k := by simpa using hne
      simp only [popKey, if_neg hq]
      exact List.mem_cons_self _ _
    · by_cases hq : n = k
      · simp only [popKey, if_pos hq]; exact h
      · simp only [popKey, if_neg hq, List.mem_cons]
        exact Or.inr (ih p h hne)

theorem popKey_ne_of_nodup {l : List (String × α)} {k : String}
    (hnd : (l.map Prod.fst).Nodup) :
    ∀ p ∈ (popKey l k).2, p.1 ≠ k := by
  induction l with
  | nil => intro p hp; simp [popKey] at hp
  | cons q t ih =>
    obtain ⟨n, v⟩ := q
    intro p hp
    simp only [List.map_cons, List.nodup_cons] at hnd
    by_cases hq : n = k
    · simp only [popKey, if_pos hq] at hp
      intro hk
      exact hnd.1 (hq ▸ hk ▸ List.mem_map_of_mem Prod.fst hp)
    · simp only [popKey, if_neg hq, List.mem_cons] at hp
      rcases hp with hp | hp
      · exact hp ▸ hq
      · exact ih hnd.2 p hp

theorem vlookup_cons_ne {t : List (String × α)} {n k : String} {w : α}
    (h : n ≠ k) : vlookup ((n, w) :: t) k = vlookup t k := by
  simp [vlookup, h]

theorem foldlE_nil (f : σ → α → Except ε σ) (init : σ) :
    foldlE f init [] = .ok init := rfl

theorem foldlE_cons (f : σ → α → Except ε σ) (init : σ) (x : α) (t : List α) :
    foldlE f init (x :: t)
      = match f init x with
        | .error e => .error e
        | .ok s => foldlE f s t := rfl

theorem ebind_ok (a : α) (f : α → Except ε β) : Except.bind (.ok a) f = f a := rfl

theorem ebind_error (e : ε) (f : α → Except ε β) :
    Except.bind (.error e) f = .error e := rfl

theorem mapME_nil (f : α → Except ε β) : mapME f [] = .ok [] := rfl

theorem mapME_cons (f : α → Except ε β) (x : α) (t : List α) :
    mapME f (x :: t)
      = match f x with
        | .error e => .error e
        | .ok y =>
          match mapME f t with
          | .error e => .error e
          | .ok ys => .ok (y :: ys) := rfl

theorem vlookup_filter_ne (l : List (String × α)) (v : String) :
    vlookup (l.filter (fun p => p.1 ≠ v)) v = none := by
  induction l with
  | nil => rfl
  | cons q t ih =>
    obtain ⟨n, w⟩ := q
    by_cases h : n = v
    · simpa [List.filter_cons, h] using ih
    · simpa [List.filter_cons, h, vlookup] using ih

/-! ### Claims C2, C10: `add_quality_indices` drop behaviour -/

/-- C10: `add_quality_indices` mutates its `quality_variables` argument:
the `drop_confidence` key is removed from the caller's mapping as a side
effect of the call (modelled as the second component of the result, the
post-call state of the mapping), and every other entry is left in the
mapping. -/
theorem C10_pop_drop_confidence (ds : Dataset) (qv : List (String × QEntry))
    (hnd : (qv.map Prod.fst).Nodup) :
    "drop_confidence" ∉ ((add_quality_indices ds qv).2.map Prod.fst) ∧
    (∀ p ∈ qv, p.1 ≠ "drop_confidence" → p ∈ (add_quality_indices ds qv).2) ∧
    (∀ p ∈ (add_quality_indices ds qv).2, p ∈ qv) := by
  refine ⟨fun hmem => ?_, popKey_mem_of_ne, popKey_subset⟩
  rcases List.mem_map.mp hmem with ⟨p, hp, hpk⟩
  exact popKey_ne_of_nodup hnd p hp hpk

/-- Witness for C10 on the concrete double-reference spec. -/
theorem C10_pop_drop_confidence_witness :
    "drop_confidence" ∉ ((add_quality_indices qcDs qcSpec).2.map Prod.fst) ∧
    ("q1", QEntry.cfg "conf" 0 1 []) ∈ (add_quality_indices qcDs qcSpec).2 := by
  have T := C10_pop_drop_confidence qcDs qcSpec (by decide)
  exact ⟨T.1, T.2.1 ("q1", .cfg "conf" 0 1 []) (by decide) (by decide)⟩

/-- Counterexample to C2: with the global drop flag set and two quality
entries referencing the same confidence input, `add_quality_indices` does
not treat the second drop as a no-op: the input is dropped inside the
loop after the first entry, so the second entry's confidence lookup
raises `KeyError`. -/
theorem C2_counterexample :
    (add_quality_indices qcDs qcSpec).1 = .error (.keyError "conf") := rfl

/-- C2 (amended): when the drop flag is set, each entry's confidence
input is removed immediately after that entry's quality variable is
derived (inside the loop, not once after it); a second entry referencing
the same input then fails with the missing-variable `KeyError` rather
than being a no-op. -/
theorem C2_drop_inside_loop (ds : Dataset) (v n1 n2 : String)
    (t1 t2 t1' t2' : ℚ) (a1 a2 : List (String × String)) (conf : Var)
    (hv : vlookup ds.vars v = some conf) (hne : n1 ≠ v) :
    (add_quality_indices ds
        [("drop_confidence", .flag true),
         (n1, .cfg v t1 t2 a1), (n2, .cfg v t1' t2' a2)]).1
      = .error (.keyError v) := by
  have h1 : (add_quality_indices ds
        [("drop_confidence", .flag true),
         (n1, .cfg v t1 t2 a1), (n2, .cfg v t1' t2' a2)]).1
      = foldlE (qualityStep true) ds
        [(n1, .cfg v t1 t2 a1), (n2, .cfg v t1' t2' a2)] := rfl
  have hstep1 : qualityStep true ds (n1, QEntry.cfg v t1 t2 a1)
      = .ok (dropVarAll
          (dsSet ds n1 ⟨conf.dims, conf.shape, conf.data.map (classify t1 t2), a1⟩) v) := by
    simp only [qualityStep, hv]
    rw [show vlookup (dsSet ds n1
          ⟨conf.dims, conf.shape, conf.data.map (classify t1 t2), a1⟩).vars v
        = some conf from (vlookup_cons_ne hne).trans hv]
    simp
  have hstep2 : ∀ acc : Dataset, qualityStep true (dropVarAll acc v) (n2, QEntry.cfg v t1' t2' a2)
      = .error (.keyError v) := by
    intro acc
    simp only [qualityStep]
    rw [show vlookup (dropVarAll acc v).vars v = none from vlookup_filter_ne _ v]
  rw [h1]
  simp only [foldlE_cons, hstep1, hstep2]

/-- Witness for the amended C2 on the concrete double-reference spec. -/
theorem C2_drop_inside_loop_witness :
    (add_quality_indices qcDs qcSpec).1 = .error (.keyError "conf") :=
  C2_drop_inside_loop qcDs "conf" "q1" "q2" 0 1 0 1 [] []
    ⟨["time"], [1], [some 0], []⟩ rfl (by decide)

/-! ### Claim C3: threshold classification -/

/-- C3: for ascending thresholds `t1 < t2`, the classifier of
`add_quality_indices` maps a value below `t1` to class 1, a value in
`[t1, t2)` to class 2, a value at or above `t2` to class 3 and NaN to
class 0; in particular `t1` itself maps to class 2 and `t2` itself to
class 3, and the spec's scenario — thresholds `(0.3, 0.7)` over
confidence `[0.1, 0.3, 0.5, 0.7, 0.9]` — produces the quality variable
`[1, 2, 2, 3, 3]`. -/
theorem C3_classification (t1 t2 x : ℚ) (hlt : t1 < t2) :
    (x < t1 → classify t1 t2 (some x) = some 1) ∧
    (t1 ≤ x → x < t2 → classify t1 t2 (some x) = some 2) ∧
    (t2 ≤ x → classify t1 t2 (some x) = some 3) ∧
    (classify t1 t2 none = some 0) ∧
    (classify t1 t2 (some t1) = some 2) ∧
    (classify t1 t2 (some t2) = some 3) ∧
    ((add_quality_indices qualityConfDs qualitySpec).1.toOption.bind
        (fun d => (vlookup d.vars "swh_quality").map Var.data))
      = some [some 1, some 2, some 2, some 3, some 3] := by
  have e1 : (1/10 : ℚ) = Rat.mk' 1 10 (by norm_num) (by norm_num) := by
    rw [Rat.mk'_eq_divInt, Rat.divInt_eq_div]; norm_num
  have e3 : (3/10 : ℚ) = Rat.mk' 3 10 (by norm_num) (by norm_num) := by
    rw [Rat.mk'_eq_divInt, Rat.divInt_eq_div]; norm_num
  have e5 : (5/10 : ℚ) = Rat.mk' 1 2 (by norm_num) (by norm_num) := by
    rw [Rat.mk'_eq_divInt, Rat.divInt_eq_div]; norm_num
  have e7 : (7/10 : ℚ) = Rat.mk' 7 10 (by norm_num) (by norm_num) := by
    rw [Rat.mk'_eq_divInt, Rat.divInt_eq_div]; norm_num
  have e9 : (9/10 : ℚ) = Rat.mk' 9 10 (by norm_num) (by norm_num) := by
    rw [Rat.mk'_eq_divInt, Rat.divInt_eq_div]; norm_num
  refine ⟨fun h => ?_, fun h1 h2 => ?_, fun h => ?_, rfl, ?_, ?_, ?_⟩
  · simp [classify, h]
  · simp [classify, not_lt.mpr h1, h1, h2]
  · have hx1 : ¬ x < t1 := not_lt.mpr (le_of_lt (lt_of_lt_of_le hlt h))
    have hx2 : ¬ (t1 ≤ x ∧ x < t2) := fun hc => absurd hc.2 (not_lt.mpr h)
    simp [classify, hx1, hx2, h]
  · simp [classify, lt_irrefl, le_refl, hlt]
  · have hx1 : ¬ t2 < t1 := not_lt.mpr (le_of_lt hlt)
    have hx2 : ¬ (t1 ≤ t2 ∧ t2 < t2) := fun hc => absurd hc.2 (lt_irrefl t2)
    simp [classify, hx1, hx2, le_refl]
  · simp only [qualityConfDs, qualitySpec, e1, e3, e5, e7, e9]
    decide

/-- Witness for C3 at integer thresholds `t1 = 0 < 1 = t2`. -/
theorem C3_classification_witness :
    classify 0 1 (some (-1)) = some 1 ∧ classify 0 1 (some 0) = some 2 ∧
    classify 0 1 (some 1) = some 3 ∧ classify 0 1 none = some 0 := by
  have T1 := C3_classification 0 1 (-1) (by decide)
  have T2 := C3_classification 0 1 0 (by decide)
  have T3 := C3_classification 0 1 1 (by decide)
  exact ⟨T1.1 (by decide), T2.2.1 (by decide) (by decide),
    T3.2.2.1 (by decide), T1.2.2.2.1⟩

/-! ### Claim C5: positional zip of predictions against output names -/

theorem formatPredsFrom_ok (preds : List (List FVal)) :
    ∀ (names : List String) (i0 : Nat), i0 + names.length ≤ preds.length →
      formatPredsFrom preds i0 names = .ok (names.zip (preds.drop i0)) := by
  intro names
  induction names with
  | nil => intro i0 h; simp [formatPredsFrom]
  | cons label rest ih =>
    intro i0 h
    have hi : i0 < preds.length := by
      simp only [List.length_cons] at h; omega
    have hg : preds.get? i0 = some preds[i0] := by
      rw [List.get?_eq_getElem?]; exact List.getElem?_eq_getElem hi
    have hd : preds.drop i0 = preds[i0] :: preds.drop (i0 + 1) :=
      List.drop_eq_getElem_cons hi
    have hrest := ih (i0 + 1) (by simp only [List.length_cons] at h; omega)
    simp only [formatPredsFrom, hg, hrest, hd, List.zip_cons_cons]

theorem formatPredsFrom_err (preds : List (List FVal)) :
    ∀ (names : List String) (i0 : Nat), i0 ≤ preds.length →
      preds.length < i0 + names.length →
      formatPredsFrom preds i0 names
        = .error (.keyError (toString preds.length)) := by
  intro names
  induction names with
  | nil => intro i0 h1 h2; simp only [List.length_nil] at h2; omega
  | cons label rest ih =>
    intro i0 h1 h2
    rcases Nat.lt_or_ge i0 preds.length with hi | hi
    · have hg : preds.get? i0 = some preds[i0] := by
        rw [List.get?_eq_getElem?]; exact List.getElem?_eq_getElem hi
      have hrest := ih (i0 + 1) (by omega)
        (by simp only [List.length_cons] at h2; omega)
      simp only [formatPredsFrom, hg, hrest]
    · have hi0 : i0 = preds.length := le_antisymm h1 hi
      subst hi0
      have hg : preds.get? preds.length = none := by
        rw [List.get?_eq_getElem?, List.getElem?_eq_none]; omega
      simp only [formatPredsFrom, hg]

/-- Counterexample to C5: three prediction columns zipped against two
declared output names is a count mismatch, yet `generate_l2_wave_product`'s
formatting step succeeds, silently ignoring the surplus column — no
`OutputArityMismatchError` (no such class exists in the source) and no
failure of any kind is raised. -/
theorem C5_counterexample :
    formatPredictions [[some 1], [some 2], [some 3]] ["swh", "windsea_swh"]
      = .ok [("swh", [some 1]), ("windsea_swh", [some 2])] ∧
    ([[some 1], [some 2], [some 3]] : List (List FVal)).length
      ≠ ["swh", "windsea_swh"].length := ⟨rfl, by decide⟩

/-- C5 (amended): the formatting step zips the flattened prediction list
against the declared output names positionally.  When there are at least
as many prediction columns as names it succeeds with the positional zip,
ignoring any surplus columns; only when there are fewer columns than
names does it fail, with the positional lookup `KeyError` at the first
missing index — there is no dedicated `OutputArityMismatchError`. -/
theorem C5_positional_zip (preds : List (List FVal)) (names : List String) :
    (names.length ≤ preds.length →
      formatPredictions preds names = .ok (names.zip preds)) ∧
    (preds.length < names.length →
      formatPredictions preds names
        = .error (.keyError (toString preds.length))) := by
  constructor
  · intro h
    have := formatPredsFrom_ok preds names 0 (by omega)
    simpa [formatPredictions] using this
  · intro h
    have := formatPredsFrom_err preds names 0 (by omega) (by omega)
    simpa [formatPredictions] using this

/-- Witness for the amended C5: both the surplus-column success and the
missing-column failure at concrete inputs. -/
theorem C5_positional_zip_witness :
    formatPredictions [[some 1], [some 2]] ["swh"] = .ok [("swh", [some 1])] ∧
    formatPredictions [[some 1]] ["swh", "windsea_swh"]
      = .error (.keyError "1") := by
  constructor
  · have h := (C5_positional_zip [[some 1], [some 2]] ["swh"]).1 (by decide)
    simpa using h
  · have h := (C5_positional_zip [[some 1]] ["swh", "windsea_swh"]).2 (by decide)
    simpa using h

/-! ### Claim C9: flattening order of predictor outputs -/

theorem colsFrom_length (r : Mat) : ∀ (n i0 : Nat), (colsFrom r i0 n).length = n := by
  intro n
  induction n with
  | zero => intro i0; rfl
  | succ n ih => intro i0; simp [colsFrom, ih]

theorem colsFrom_get? (r : Mat) :
    ∀ (n i0 k : Nat), k < n →
      (colsFrom r i0 n).get? k = some (colAt r (i0 + k)) := by
  intro n
  induction n with
  | zero => intro i0 k h; omega
  | succ n ih =>
    intro i0 k h
    cases k with
    | zero => simp [colsFrom]
    | succ k =>
      have := ih (i0 + 1) k (by omega)
      simpa [colsFrom, Nat.add_assoc, Nat.add_comm 1 k] using this

theorem colsOf_length (r : Mat) : (colsOf r).length = numCols r :=
  colsFrom_length r (numCols r) 0

theorem flattenPredictions_get (res : List Mat) :
    ∀ (j i : Nat), j < res.length → i < numCols (res.getD j []) →
      (flattenPredictions res).get? (colsBefore res j + i)
        = some (colAt (res.getD j []) i) := by
  induction res with
  | nil => intro j i hj _; simp at hj
  | cons r rest ih =>
    intro j i hj hi
    cases j with
    | zero =>
      simp only [flattenPredictions, colsBefore, List.take_zero, List.map_nil,
        List.sum_nil, Nat.zero_add]
      rw [List.get?_append]
      · simpa [colsOf] using colsFrom_get? r (numCols r) 0 i (by simpa using hi)
      · rw [colsOf_length]; simpa using hi
    | succ j =>
      have hcb : colsBefore (r :: rest) (j + 1) = numCols r + colsBefore rest j := by
        simp [colsBefore, List.take_succ_cons]
      rw [hcb]
      have harr : numCols r + colsBefore rest j + i
          = (colsOf r).length + (colsBefore rest j + i) := by
        rw [colsOf_length]; omega
      simp only [flattenPredictions, harr]
      rw [List.get?_append_right (by omega)]
      have := ih j i (by simpa using hj) (by simpa using hi)
      simpa using this

/-- C9: `predict_variables` flattens the predictor's output tensors into
one ordered list of per-sample 1-D arrays, ordered first by tensor and
then by sub-variable (trailing-axis column) within each tensor: the entry
at position (columns of the first `j` tensors) + `i` is column `i` of
tensor `j`. -/
theorem C9_flatten_order (model : Mat → List Mat) (inputs : List NpArr)
    (res : List Mat) (hres : model (featureTensor inputs) = res)
    (j i : Nat) (hj : j < res.length) (hi : i < numCols (res.getD j [])) :
    (predict_variables model inputs).get? (colsBefore res j + i)
      = some (colAt (res.getD j []) i) := by
  rw [predict_variables, hres]
  exact flattenPredictions_get res j i hj hi

/-- A concrete two-tensor predictor result for the C9 witness. -/
def c9res : List Mat := [[[some 1, some 2], [some 3, some 4]], [[some 5]]]

/-- A constant predictor returning `c9res`. -/
def c9model : Mat → List Mat := fun _ => c9res

/-- Witness for C9: with a 2-column first tensor, the third flattened
entry is column 0 of the second tensor. -/
theorem C9_flatten_order_witness :
    (predict_variables c9model []).get? 2 = some [some 5] := by
  have h := C9_flatten_order c9model [] c9res rfl 1 0 (by decide) (by decide)
  exact h

/-! ### Claims C4, C7: `apply_range_filters` -/

theorem boundsTest_none (mn mx : ℚ) : boundsTest mn mx none = false := rfl

theorem getD_map_boundsTest (mn mx : ℚ) :
    ∀ (l : List FVal) (i : Nat),
      (l.map (boundsTest mn mx)).getD i false = boundsTest mn mx (l.getD i none) := by
  intro l
  induction l with
  | nil => intro i; rfl
  | cons x xs ih =>
    intro i
    cases i with
    | zero => rfl
    | succ i => simpa using ih i

theorem getD_zipWith_and :
    ∀ (a b : List Bool) (i : Nat),
      (List.zipWith and a b).getD i false = (a.getD i false && b.getD i false) := by
  intro a
  induction a with
  | nil => intro b i; simp
  | cons x xs ih =>
    intro b i
    cases b with
    | nil => simp
    | cons y ys =>
      cases i with
      | zero => rfl
      | succ i => simpa using ih ys i

theorem getD_replicate_true :
    ∀ (t i : Nat), (List.replicate t true).getD i false = decide (i < t) := by
  intro t
  induction t with
  | zero => intro i; simp
  | succ t ih =>
    intro i
    cases i with
    | zero => simp [List.replicate]
    | succ i => simpa [List.replicate] using ih i

/-- Per-sample characterization of the mask-accumulation loop: sample `i`
survives exactly when it is in range and every configured variable's
inclusive-bounds test holds for it on the original acquisition. -/
theorem buildMask_getD (l1b : Dataset) :
    ∀ (rf : List (String × ℚ × ℚ)) (m0 mask : List Bool),
      foldlE (maskStep l1b) m0 rf = .ok mask →
      ∀ i, mask.getD i false
        = (m0.getD i false && rf.all (fun p =>
            (vlookup l1b.vars p.1).elim false
              (fun w => boundsTest p.2.1 p.2.2 (w.data.getD i none)))) := by
  intro rf
  induction rf with
  | nil =>
    intro m0 mask h i
    rw [foldlE_nil] at h
    cases h
    simp
  | cons p rest ih =>
    intro m0 mask h i
    rw [foldlE_cons] at h
    cases hl : vlookup l1b.vars p.1 with
    | none => rw [maskStep, hl] at h; cases h
    | some w =>
      rw [maskStep, hl] at h
      have hrec := ih (List.zipWith and m0 (w.data.map (boundsTest p.2.1 p.2.2))) mask h i
      rw [hrec, getD_zipWith_and, getD_map_boundsTest]
      simp [hl, Bool.and_assoc]

/-- Per-cell characterization of the `.where(mask, np.nan)` masking:
cell `k` (at time row `k / rowlen`) is kept where the mask is true and
becomes NaN where it is false. -/
theorem maskFrom_get? (mask : List Bool) (r : Nat) :
    ∀ (d : List FVal) (i0 k : Nat),
      (maskFrom mask r i0 d).get? k
        = (d.get? k).map (fun x =>
            if mask.getD ((i0 + k) / r) false then x else none) := by
  intro d
  induction d with
  | nil => intro i0 k; simp [maskFrom]
  | cons x xs ih =>
    intro i0 k
    cases k with
    | zero => simp [maskFrom]
    | succ k =>
      have := ih (i0 + 1) k
      simpa [maskFrom, Nat.add_assoc, Nat.add_comm 1 k] using this

theorem maskFrom_idem (mask : List Bool) (r : Nat) :
    ∀ (d : List FVal) (i0 : Nat),
      maskFrom mask r i0 (maskFrom mask r i0 d) = maskFrom mask r i0 d := by
  intro d
  induction d with
  | nil => intro i0; rfl
  | cons x xs ih =>
    intro i0
    show (if mask.getD (i0 / r) false then
            (if mask.getD (i0 / r) false then x else none) else none)
          :: maskFrom mask r (i0 + 1) (maskFrom mask r (i0 + 1) xs)
        = (if mask.getD (i0 / r) false then x else none) :: maskFrom mask r (i0 + 1) xs
    rw [ih]
    cases mask.getD (i0 / r) false <;> simp

theorem whereVar_idem (mask : List Bool) (v : Var) :
    whereVar mask (whereVar mask v) = whereVar mask v := by
  simp [whereVar, maskFrom_idem]

theorem vlookup_mapVal (f : String → α → β) :
    ∀ (l : List (String × α)) (n : String),
      vlookup (l.map (fun p => (p.1, f p.1 p.2))) n = (vlookup l n).map (f n) := by
  intro l
  induction l with
  | nil => intro n; rfl
  | cons q t ih =>
    obtain ⟨m, v⟩ := q
    intro n
    by_cases h : m = n
    · subst h; simp [vlookup]
    · simp [vlookup, h, ih n]

theorem apply_range_filters_of_ok (l1b l2 : Dataset)
    (rf : List (String × ℚ × ℚ)) (t : Nat) (mask : List Bool)
    (he : rf.isEmpty = false)
    (hst : sizeE l1b "time" = .ok t)
    (hbm : buildMask l1b t rf = .ok mask) :
    apply_range_filters l1b l2 rf = .ok (whereDs l2 mask) := by
  rw [apply_range_filters, if_neg (by simp [he]), hst]
  show (match buildMask l1b t rf with
        | .error e => (Except.error e : Except ProcError Dataset)
        | .ok mask => .ok (whereDs l2 mask)) = .ok (whereDs l2 mask)
  rw [hbm]

theorem apply_range_filters_ok_inv (l1b l2 l2' : Dataset)
    (rf : List (String × ℚ × ℚ)) (he : rf.isEmpty = false)
    (h : apply_range_filters l1b l2 rf = .ok l2') :
    ∃ t mask, sizeE l1b "time" = .ok t ∧
      buildMask l1b t rf = .ok mask ∧ l2' = whereDs l2 mask := by
  rw [apply_range_filters, if_neg (by simp [he])] at h
  cases hst : sizeE l1b "time" with
  | error e =>
    rw [hst] at h
    have hbad : (Except.error e : Except ProcError Dataset) = .ok l2' := h
    cases hbad
  | ok t =>
    rw [hst] at h
    have h' : (match buildMask l1b t rf with
        | .error e => (Except.error e : Except ProcError Dataset)
        | .ok mask => .ok (whereDs l2 mask)) = .ok l2' := h
    cases hbm : buildMask l1b t rf with
    | error e =>
      rw [hbm] at h'
      have hbad : (Except.error e : Except ProcError Dataset) = .ok l2' := h'
      cases hbad
    | ok mask =>
      rw [hbm] at h'
      have hok : (Except.ok (whereDs l2 mask) : Except ProcError Dataset) = .ok l2' := h'
      cases hok
      exact ⟨t, mask, rfl, hbm, rfl⟩

theorem whereDs_idem (l2 : Dataset) (mask : List Bool) :
    whereDs (whereDs l2 mask) mask = whereDs l2 mask := by
  simp only [whereDs, List.map_map]
  congr 1
  refine List.map_congr_left ?_
  intro p _
  by_cases hc : p.1 ∈ l2.coords
  · simp [hc]
  · simp [hc, whereVar_idem]

/-- C4: `apply_range_filters` builds a per-sample mask by AND-ing, for
each configured variable, the inclusive-bounds test `(value >= min) &
(value <= max)` evaluated on the original acquisition's variable, then
sets every (non-coordinate) variable of the L2 product to NaN at samples
where the mask is false, leaving values unchanged where it is true; with
no configured filters the product is returned unchanged. -/
theorem C4_range_filter (l1b l2 : Dataset) (rf : List (String × ℚ × ℚ))
    (t : Nat) (mask : List Bool)
    (ht : vlookup l1b.sizes "time" = some t)
    (hm : buildMask l1b t rf = .ok mask) :
    (apply_range_filters l1b l2 [] = .ok l2) ∧
    (rf ≠ [] → apply_range_filters l1b l2 rf = .ok (whereDs l2 mask)) ∧
    (∀ i, mask.getD i false
        = (decide (i < t) && rf.all (fun p =>
            (vlookup l1b.vars p.1).elim false
              (fun w => boundsTest p.2.1 p.2.2 (w.data.getD i none))))) ∧
    (∀ n v, vlookup l2.vars n = some v → n ∉ l2.coords →
        vlookup (whereDs l2 mask).vars n = some (whereVar mask v)) ∧
    (∀ (v : Var) (k : Nat),
        (whereVar mask v).data.get? k
          = (v.data.get? k).map (fun x =>
              if mask.getD (k / v.shape.tail.prod) false then x else none)) := by
  refine ⟨rfl, fun hne => ?_, fun i => ?_, fun n v hv hc => ?_, fun v k => ?_⟩
  · have hie : rf.isEmpty = false := by
      cases rf with
      | nil => exact absurd rfl hne
      | cons q qt => rfl
    exact apply_range_filters_of_ok l1b l2 rf t mask hie (by rw [sizeE, ht]) hm
  · have := buildMask_getD l1b rf (List.replicate t true) mask hm i
    rw [this, getD_replicate_true]
  · rw [show (whereDs l2 mask).vars
        = l2.vars.map (fun p => (p.1, if p.1 ∈ l2.coords then p.2 else whereVar mask p.2))
        from rfl]
    rw [vlookup_mapVal (fun n v => if n ∈ l2.coords then v else whereVar mask v) l2.vars n]
    simp [hv, hc]
  · rw [show (whereVar mask v).data = maskFrom mask v.shape.tail.prod 0 v.data from rfl]
    simpa using maskFrom_get? mask v.shape.tail.prod v.data 0 k

/-- C7: `apply_range_filters` is idempotent — the mask is recomputed from
the unchanged acquisition, and re-masking an already-masked product
changes nothing. -/
theorem C7_range_filter_idempotent (l1b l2 l2' : Dataset)
    (rf : List (String × ℚ × ℚ))
    (h : apply_range_filters l1b l2 rf = .ok l2') :
    apply_range_filters l1b l2' rf = .ok l2' := by
  by_cases he : rf.isEmpty
  · have hl : l2' = l2 := by
      rw [apply_range_filters, if_pos he] at h
      cases h; rfl
    subst hl
    rw [apply_range_filters, if_pos he]
  · have he' : rf.isEmpty = false := by
      cases hh : rf.isEmpty
      · rfl
      · exact absurd hh he
    obtain ⟨t, mask, hst, hbm, rfl⟩ := apply_range_filters_ok_inv l1b l2 l2' rf he' h
    rw [apply_range_filters_of_ok l1b (whereDs l2 mask) rf t mask he' hst hbm,
      whereDs_idem]

/-- Witness for C4: the sample at `x = 9` (outside `[2, 8]`) is masked,
the sample at `x = 5` passes through. -/
theorem C4_range_filter_witness :
    apply_range_filters rfL1b rfL2 [] = .ok rfL2 ∧
    apply_range_filters rfL1b rfL2 rfSpec = .ok (whereDs rfL2 [true, false]) ∧
    vlookup (whereDs rfL2 [true, false]).vars "swh"
      = some (whereVar [true, false] ⟨["time"], [2], [some 1, some 2], []⟩) := by
  have T := C4_range_filter rfL1b rfL2 rfSpec 2 [true, false] rfl rfl
  exact ⟨T.1, T.2.1 (by decide),
    T.2.2.2.1 "swh" ⟨["time"], [2], [some 1, some 2], []⟩ rfl (by decide)⟩

/-! ### Claim C6: missing model input -/

theorem find?_congr_pred {p q : α → Bool} (h : ∀ a, p a = q a) :
    ∀ l : List α, l.find? p = l.find? q := by
  intro l
  induction l with
  | nil => rfl
  | cons x t ih => rw [List.find?_cons, List.find?_cons, h, ih]

/-- Looking up a declared input list on a dataset errors, with the first
absent name, as the comprehension `[ds_input[v] for v in model_inputs]`
does. -/
theorem mapME_getVarE_err (ds' : Dataset) :
    ∀ (l : List String) (w : String),
      l.find? (fun n => (vlookup ds'.vars n).isNone) = some w →
      mapME (getVarE ds') l = .error (.keyError w) := by
  intro l
  induction l with
  | nil => intro w h; simp [List.find?] at h
  | cons n t ih =>
    intro w h
    rw [List.find?_cons] at h
    cases hv : vlookup ds'.vars n with
    | none =>
      rw [hv] at h
      simp only [Option.isNone_none, if_pos] at h
      cases h
      rw [mapME_cons, show getVarE ds' n = .error (.keyError n) from by
        rw [getVarE, hv]]
    | some v =>
      rw [hv] at h
      simp only [Option.isNone_some, Bool.false_eq_true, if_false] at h
      rw [mapME_cons, show getVarE ds' n = .ok v from by rw [getVarE, hv], ih w h]

/-- Variable names, hence presence and absence, are preserved by tile
stacking. -/
theorem stackTiles_isNone (ds : Dataset) (n : String) :
    (vlookup (stackTiles ds).vars n).isNone = (vlookup ds.vars n).isNone := by
  rw [show (stackTiles ds).vars = ds.vars.map (fun p => (p.1, stackVar p.2))
      from rfl]
  rw [vlookup_mapVal (fun _ v => stackVar v) ds.vars n]
  cases vlookup ds.vars n <;> rfl

/-- C6: on the ocean path, a declared model input absent from the
acquisition makes `generate_l2_wave_product` fail during feature
extraction with the key-lookup error naming the (first such) missing
variable — the failure mode the spec calls `MissingFeatureError`. -/
theorem C6_missing_input (ds l2_ref : Dataset) (model : Mat → List Mat)
    (model_inputs model_outputs kept_variables : List String)
    (lf : Var) (w : String)
    (hlf : vlookup ds.vars "land_flag" = some lf)
    (hocean : landAllB lf = false)
    (hfind : model_inputs.find? (fun n => (vlookup ds.vars n).isNone) = some w) :
    generate_l2_wave_product ds l2_ref model model_inputs model_outputs
      kept_variables = .error (.keyError w) := by
  have hds_input :
      mapME (getVarE (if "cwave_params" ∈ model_inputs then stackTiles ds else ds))
        model_inputs = .error (.keyError w) := by
    by_cases hc : "cwave_params" ∈ model_inputs
    · rw [if_pos hc]
      refine mapME_getVarE_err (stackTiles ds) model_inputs w ?_
      rw [find?_congr_pred (fun n => stackTiles_isNone ds n) model_inputs]
      exact hfind
    · rw [if_neg hc]
      exact mapME_getVarE_err ds model_inputs w hfind
  rw [generate_l2_wave_product,
    show getVarE ds "land_flag" = .ok lf from by rw [getVarE, hlf],
    ebind_ok, if_neg (by simp [hocean]), ebind_ok, hds_input, ebind_error]

/-- A one-sample ocean acquisition (`land_flag = [0]`) with no `sigma0`. -/
def oceanDs : Dataset :=
  ⟨[("land_flag", ⟨["time"], [1], [some 0], []⟩)], [], [("time", 1)], []⟩

/-- Witness for C6: `sigma0` declared but absent fails with `KeyError("sigma0")`. -/
theorem C6_missing_input_witness :
    generate_l2_wave_product oceanDs emptyDs (fun _ => []) ["sigma0"] ["swh"] []
      = .error (.keyError "sigma0") :=
  C6_missing_input oceanDs emptyDs (fun _ => []) ["sigma0"] ["swh"] []
    ⟨["time"], [1], [some 0], []⟩ "sigma0" rfl rfl rfl

/-! ### Claim C1: the land-only branch -/

/-- A two-sample acquisition entirely over land. -/
def landDs : Dataset :=
  ⟨[("land_flag", ⟨["time"], [2], [some 1, some 1], []⟩)], [], [("time", 2)], []⟩

/-- A minimal reference/template dataset with one coordinate. -/
def landRef : Dataset := ⟨[("lon", ⟨[], [], [some 0], []⟩)], ["lon"], [], []⟩

/-- A one-sample land-only acquisition. -/
def landDs1 : Dataset :=
  ⟨[("land_flag", ⟨["time"], [1], [some 1], []⟩)], [], [("time", 1)], []⟩

/-- A template carrying a `swh` variable over one spectral bin. -/
def landRefSwh : Dataset := ⟨[("swh", ⟨["nf"], [1], [none], []⟩)], [], [("nf", 1)], []⟩

/-! ### Claim C8: the land-substitution fill -/

theorem mapME_congr (f g : α → Except ε β) :
    ∀ l : List α, (∀ a ∈ l, f a = g a) → mapME f l = mapME g l := by
  intro l
  induction l with
  | nil => intro _; rfl
  | cons x t ih =>
    intro h
    rw [mapME_cons, mapME_cons, h x (List.mem_cons_self x t),
      ih (fun a ha => h a (List.mem_cons_of_mem x ha))]

/-- The fill branch of the `kept_variables` loop: when the variable is
absent from the acquisition and is not a template-coordinate fallback,
the loop synthesizes the NaN array of shape
`(acquisition time count, template trailing sizes)` with the template's
attributes, independently of the accumulator. -/
theorem landKeptStep_fill (ds_land l2_ref : Dataset) (var : String) (tv : Var)
    (tN : Nat) (refSizes : List Nat)
    (h1 : vlookup ds_land.vars var = none)
    (h2 : var ∉ l2_ref.coords)
    (h4 : vlookup l2_ref.vars var = some tv)
    (h5 : "time" ∉ tv.dims)
    (htN : vlookup ds_land.sizes "time" = some tN)
    (hsz : mapME (sizeE l2_ref) tv.dims = .ok refSizes) :
    ∀ acc : Dataset, landKeptStep ds_land l2_ref acc var
      = .ok (dsSet acc var
          ⟨"time" :: tv.dims, tN :: refSizes,
           List.replicate ((tN :: refSizes).prod) none, tv.attrs⟩) := by
  intro acc
  have hstep_time :
      (if ("time" : String) = "time" then sizeE ds_land "time" else sizeE l2_ref "time")
        = .ok tN := by
    rw [if_pos rfl, sizeE, htN]
  have htail : mapME
      (fun d => if d = "time" then sizeE ds_land "time" else sizeE l2_ref d)
      tv.dims = .ok refSizes := by
    rw [mapME_congr _ (sizeE l2_ref) tv.dims
      (fun d hd => if_neg (fun he : d = "time" => h5 (he ▸ hd))), hsz]
  have hm : mapME
      (fun d => if d = "time" then sizeE ds_land "time" else sizeE l2_ref d)
      ("time" :: tv.dims) = .ok (tN :: refSizes) := by
    rw [mapME_cons, hstep_time, htail]
  simp only [landKeptStep, h1, h4]
  rw [if_neg (fun hc => h2 hc.1), hm]

/-- Any successful iteration of the `kept_variables` loop prepends one
binding for the processed name, possibly registering it as a coordinate,
and touches nothing else. -/
theorem landKeptStep_shape (ds_land l2_ref : Dataset) (acc : Dataset)
    (w : String) (out' : Dataset)
    (h : landKeptStep ds_land l2_ref acc w = .ok out') :
    ∃ vv, out'.vars = (w, vv) :: acc.vars ∧
      (out'.coords = acc.coords ∨ out'.coords = w :: acc.coords) := by
  rw [landKeptStep] at h
  split at h
  · cases h
    exact ⟨_, rfl, Or.inl rfl⟩
  · split at h
    · split at h
      · cases h
        exact ⟨_, rfl, Or.inr rfl⟩
      · cases h
    · split at h
      · cases h
      · split at h
        · cases h
        · cases h
          exact ⟨_, rfl, Or.inl rfl⟩

/-- Tracking one name through the `kept_variables` loop: if the loop
step for `var` always writes the state-independent fill value, then after
a successful fold `var` maps to that value whenever it was in the list,
`var`'s coordinate status is untouched, and `var` is untouched when not
in the list. -/
theorem landKeptFold_mem (ds_land l2_ref : Dataset) (var : String) (fv : Var)
    (hfill : ∀ acc : Dataset,
      landKeptStep ds_land l2_ref acc var = .ok (dsSet acc var fv)) :
    ∀ (l : List String) (acc out' : Dataset),
      foldlE (landKeptStep ds_land l2_ref) acc l = .ok out' →
      (var ∈ l → vlookup out'.vars var = some fv) ∧
      (var ∈ out'.coords ↔ var ∈ acc.coords) ∧
      (var ∉ l → vlookup out'.vars var = vlookup acc.vars var) := by
  intro l
  induction l with
  | nil =>
    intro acc out' h
    rw [foldlE_nil] at h
    cases h
    exact ⟨fun hm => absurd hm (List.not_mem_nil var), Iff.rfl, fun _ => rfl⟩
  | cons w t ih =>
    intro acc out' h
    rw [foldlE_cons] at h
    by_cases hw : w = var
    · subst hw
      rw [hfill acc] at h
      have h' : foldlE (landKeptStep ds_land l2_ref) (dsSet acc w fv) t
          = .ok out' := h
      have IH := ih (dsSet acc w fv) out' h'
      refine ⟨fun _ => ?_, IH.2.1, fun hn => absurd (List.mem_cons_self w t) hn⟩
      by_cases hvt : w ∈ t
      · exact IH.1 hvt
      · rw [IH.2.2 hvt]
        simp [dsSet, vlookup]
    · cases hst : landKeptStep ds_land l2_ref acc w with
      | error e =>
        rw [hst] at h
        have hbad : (Except.error e : Except ProcError Dataset) = .ok out' := h
        cases hbad
      | ok mid1 =>
        rw [hst] at h
        have h' : foldlE (landKeptStep ds_land l2_ref) mid1 t = .ok out' := h
        obtain ⟨vv, hvars, hcoords⟩ :=
          landKeptStep_shape ds_land l2_ref acc w mid1 hst
        have IH := ih mid1 out' h'
        refine ⟨fun hm => ?_, ?_, fun hn => ?_⟩
        · rcases List.mem_cons.mp hm with hm | hm
          · exact absurd hm.symm hw
          · exact IH.1 hm
        · rw [IH.2.1]
          rcases hcoords with hc | hc
          · rw [hc]
          · rw [hc]
            simp only [List.mem_cons]
            constructor
            · rintro (he | he)
              · exact absurd he.symm hw
              · exact he
            · exact Or.inr
        · have hvt : var ∉ t := fun hm => hn (List.mem_cons_of_mem w hm)
          rw [IH.2.2 hvt, hvars, vlookup_cons_ne hw]

/-- The template-coordinate copy loop never touches a name that is not
in its worklist. -/
theorem landCoordFold_preserve (l2_ref : Dataset) (var : String) :
    ∀ (l : List String) (acc out' : Dataset),
      (∀ c ∈ l, c ≠ var) →
      foldlE (landCoordStep l2_ref) acc l = .ok out' →
      vlookup out'.vars var = vlookup acc.vars var := by
  intro l
  induction l with
  | nil =>
    intro acc out' _ h
    rw [foldlE_nil] at h
    cases h
    rfl
  | cons c t ih =>
    intro acc out' hne h
    rw [foldlE_cons, landCoordStep] at h
    cases hv : vlookup l2_ref.vars c with
    | none =>
      rw [hv] at h
      have hbad : (Except.error (ProcError.keyError c) : Except ProcError Dataset)
          = .ok out' := h
      cases hbad
    | some v =>
      rw [hv] at h
      have h' : foldlE (landCoordStep l2_ref) (dsSetCoord acc c v) t = .ok out' := h
      rw [ih (dsSetCoord acc c v) out'
        (fun x hx => hne x (List.mem_cons_of_mem c hx)) h']
      exact vlookup_cons_ne (hne c (List.mem_cons_self c t))

/-- Coordinates only accumulate during the copy loop. -/
theorem landCoordFold_coords_mono (l2_ref : Dataset) :
    ∀ (l : List String) (acc out' : Dataset),
      foldlE (landCoordStep l2_ref) acc l = .ok out' →
      ∀ c ∈ acc.coords, c ∈ out'.coords := by
  intro l
  induction l with
  | nil =>
    intro acc out' h
    rw [foldlE_nil] at h
    cases h
    exact fun c hc => hc
  | cons c t ih =>
    intro acc out' h
    rw [foldlE_cons, landCoordStep] at h
    cases hv : vlookup l2_ref.vars c with
    | none =>
      rw [hv] at h
      have hbad : (Except.error (ProcError.keyError c) : Except ProcError Dataset)
          = .ok out' := h
      cases hbad
    | some v =>
      rw [hv] at h
      have h' : foldlE (landCoordStep l2_ref) (dsSetCoord acc c v) t = .ok out' := h
      intro x hx
      exact ih (dsSetCoord acc c v) out' h' x (List.mem_cons_of_mem c hx)

/-- Every coordinate processed by the copy loop ends up in the result,
carrying exactly the template's variable. -/
theorem landCoordFold_copy (l2_ref : Dataset) :
    ∀ (l : List String) (acc out' : Dataset), l.Nodup →
      foldlE (landCoordStep l2_ref) acc l = .ok out' →
      ∀ c ∈ l, vlookup out'.vars c = vlookup l2_ref.vars c ∧ c ∈ out'.coords := by
  intro l
  induction l with
  | nil => intro acc out' _ _ c hc; exact absurd hc (List.not_mem_nil c)
  | cons c t ih =>
    intro acc out' hnd h x hx
    rw [foldlE_cons, landCoordStep] at h
    cases hv : vlookup l2_ref.vars c with
    | none =>
      rw [hv] at h
      have hbad : (Except.error (ProcError.keyError c) : Except ProcError Dataset)
          = .ok out' := h
      cases hbad
    | some v =>
      rw [hv] at h
      have h' : foldlE (landCoordStep l2_ref) (dsSetCoord acc c v) t = .ok out' := h
      rcases List.mem_cons.mp hx with hx | hx
      · subst hx
        constructor
        · have hne : ∀ y ∈ t, y ≠ x :=
            fun y hy he => (List.nodup_cons.mp hnd).1 (he ▸ hy)
          rw [landCoordFold_preserve l2_ref x t (dsSetCoord acc x v) out' hne h']
          simp [dsSetCoord, vlookup, hv]
        · exact landCoordFold_coords_mono l2_ref t (dsSetCoord acc x v) out' h' x
            (List.mem_cons_self x acc.coords)
      · exact ih (dsSetCoord acc c v) out' (List.nodup_cons.mp hnd).2 h' x hx

/-- C8: in the land-substitution path, a kept variable absent from the
acquisition and not usable as a template-coordinate fallback is
synthesized as an all-NaN array of shape
`(acquisition time count, template trailing sizes)` carrying the template
variable's attributes; every template coordinate not already present
after the kept loop is copied in unmodified and registered as a
coordinate; and the result's global attributes are the acquisition's. -/
theorem C8_land_fill (ds_land l2_ref : Dataset)
    (model_outputs kept : List String) (var : String) (tv : Var)
    (tN : Nat) (refSizes : List Nat) (mid out : Dataset)
    (h1 : vlookup ds_land.vars var = none)
    (h2 : var ∉ l2_ref.coords)
    (h3 : var ∈ kept)
    (h4 : vlookup l2_ref.vars var = some tv)
    (h5 : "time" ∉ tv.dims)
    (htN : vlookup ds_land.sizes "time" = some tN)
    (hsz : mapME (sizeE l2_ref) tv.dims = .ok refSizes)
    (hnd : l2_ref.coords.Nodup)
    (hmid : landKeptLoop ds_land l2_ref kept = .ok mid)
    (hout : generate_product_on_land ds_land l2_ref model_outputs kept = .ok out) :
    vlookup out.vars var
      = some ⟨"time" :: tv.dims, tN :: refSizes,
          List.replicate ((tN :: refSizes).prod) none, tv.attrs⟩ ∧
    (∀ c ∈ l2_ref.coords, c ∉ mid.coords →
        vlookup out.vars c = vlookup l2_ref.vars c ∧ c ∈ out.coords) ∧
    out.attrs = ds_land.attrs := by
  rw [generate_product_on_land, hmid, ebind_ok] at hout
  cases hcf : foldlE (landCoordStep l2_ref) mid
      (l2_ref.coords.filter (fun c => c ∉ mid.coords)) with
  | error e =>
    rw [hcf] at hout
    have hbad : (Except.error e : Except ProcError Dataset) = .ok out := hout
    cases hbad
  | ok pre =>
    rw [hcf] at hout
    have hok : Except.ok { pre with attrs := ds_land.attrs } = .ok out := hout
    cases hok
    have hfill := landKeptStep_fill ds_land l2_ref var tv tN refSizes
      h1 h2 h4 h5 htN hsz
    have hk := landKeptFold_mem ds_land l2_ref var
      ⟨"time" :: tv.dims, tN :: refSizes,
        List.replicate ((tN :: refSizes).prod) none, tv.attrs⟩
      hfill kept emptyDs mid hmid
    have hvarmid := hk.1 h3
    have hcta_sub : ∀ c ∈ l2_ref.coords.filter (fun c => c ∉ mid.coords),
        c ≠ var := by
      intro c hc he
      exact h2 (he ▸ (List.mem_filter.mp hc).1)
    refine ⟨?_, ?_, rfl⟩
    · rw [show ({ pre with attrs := ds_land.attrs } : Dataset).vars = pre.vars
        from rfl]
      rw [landCoordFold_preserve l2_ref var _ mid pre hcta_sub hcf]
      exact hvarmid
    · intro c hcr hcm
      have hc_in : c ∈ l2_ref.coords.filter (fun c => c ∉ mid.coords) := by
        rw [List.mem_filter]
        exact ⟨hcr, by simpa using hcm⟩
      have hcopy := landCoordFold_copy l2_ref _ mid pre
        (hnd.filter _) hcf c hc_in
      exact ⟨hcopy.1, hcopy.2⟩

/-- A template carrying both a data variable and a coordinate. -/
def landRefFull : Dataset :=
  ⟨[("swh", ⟨["nf"], [1], [none], []⟩), ("lon", ⟨[], [], [some 0], []⟩)],
   ["lon"], [("nf", 1)], []⟩

/-- The state of the land product after the kept loop on `landDs1` and
`landRefFull` with `kept = ["swh"]`. -/
def c8mid : Dataset :=
  ⟨[("swh", ⟨["time", "nf"], [1, 1], [none], []⟩)], [], [], []⟩

/-- The finished land product of the C8 witness run. -/
def c8out : Dataset :=
  ⟨[("lon", ⟨[], [], [some 0], []⟩), ("swh", ⟨["time", "nf"], [1, 1], [none], []⟩)],
   ["lon"], [], []⟩

/-- Witness for C8 on a one-sample land acquisition and a one-bin
template. -/
theorem C8_land_fill_witness :
    vlookup c8out.vars "swh"
      = some ⟨["time", "nf"], [1, 1], List.replicate 1 none, []⟩ ∧
    (vlookup c8out.vars "lon" = vlookup landRefFull.vars "lon" ∧
      "lon" ∈ c8out.coords) ∧
    c8out.attrs = landDs1.attrs := by
  have T := C8_land_fill landDs1 landRefFull ["swh"] ["swh"] "swh"
    ⟨["nf"], [1], [none], []⟩ 1 [1] c8mid c8out
    rfl (by decide) (by decide) rfl (by decide) rfl rfl (by decide) rfl rfl
  exact ⟨T.1, T.2.1 "lon" (by decide) (by decide), T.2.2⟩

/-- Exhibit for C1 (code bug): on a land-only acquisition the source has
no `return` in the land branch, so `generate_l2_wave_product` rebinds
`ds` to the substituted product and falls through to feature extraction
and inference instead of bypassing them.  First conjunct: with a model
input (`sigma0`) not present in the land product, the run fails with the
feature lookup `KeyError` instead of returning the land product.  Second
conjunct: the land product itself was perfectly constructible, so the
failure is the fall-through.  Third conjunct: when the declared input
does exist in the land product, execution reaches the inference adapter
(the run fails at prediction formatting with the positional lookup error
of an empty predictor result) — the predictor is invoked on the land
path, contradicting the claimed bypass. -/
theorem C1_land_branch_falls_through :
    generate_l2_wave_product landDs landRef (fun _ => []) ["sigma0"] ["swh"] []
      = .error (.keyError "sigma0") ∧
    generate_product_on_land landDs landRef ["swh"] []
      = .ok ⟨[("lon", ⟨[], [], [some 0], []⟩)], ["lon"], [], []⟩ ∧
    generate_l2_wave_product landDs1 landRefSwh (fun _ => []) ["swh"] ["swh"] ["swh"]
      = .error (.keyError "0") :=
  ⟨rfl, rfl, rfl⟩

/-- Witness for C7: re-filtering the already-filtered concrete product
returns it unchanged. -/
theorem C7_range_filter_idempotent_witness :
    apply_range_filters rfL1b
      ⟨[("swh", ⟨["time"], [2], [some 1, none], []⟩)], [], [("time", 2)], []⟩ rfSpec
      = .ok ⟨[("swh", ⟨["time"], [2], [some 1, none], []⟩)], [], [("time", 2)], []⟩ :=
  C7_range_filter_idempotent rfL1b rfL2
    ⟨[("swh", ⟨["time"], [2], [some 1, none], []⟩)], [], [("time", 2)], []⟩ rfSpec rfl

end ASAR
